import Mathlib

/-!
Verification development for the ddns-hosttech reconciliation client
(`src/ddns-hosttech.py`). The Python source is shallowly embedded:
duck-typed record dictionaries become a structure with `Option` fields for
keys accessed with `.get`, HTTP calls become an environment of oracles, and
each API request issued by the code is recorded in a trace.
-/

namespace DdnsHosttech

/-- Python's `s.split(c)` for a single-character separator, on the character
list of the string. `split` always returns at least one (possibly empty)
piece. -/
def splitOnChar (c : Char) : List Char → List (List Char)
  | [] => [[]]
  | a :: rest =>
    let r := splitOnChar c rest
    if a = c then [] :: r
    else
      match r with
      | [] => [[a]]
      | h :: t => (a :: h) :: t

/-- `splitOnChar` never returns the empty list (mirrors Python `split`). -/
theorem splitOnChar_ne_nil (c : Char) (l : List Char) : splitOnChar c l ≠ [] := by
  cases l with
  | nil => simp [splitOnChar]
  | cons a rest =>
    simp only [splitOnChar]
    split
    · simp
    · split <;> simp

/-- `domain.startswith('*.')` from the source. -/
def startsWithWildcard (s : String) : Bool :=
  match s.data with
  | '*' :: '.' :: _ => true
  | _ => false

/-- `domain[2:]` as used on wildcard domains in `get_zone_id`. -/
def stripWildcard (s : String) : String := ⟨s.data.drop 2⟩

/-- `domain.split('.')` from the source. -/
def domainParts (s : String) : List String :=
  (splitOnChar '.' s.data).map String.mk

/-- Output shape of the classification logic that `update_dns` computes
inline (lines 378-390): zone query key, wildcard flag, record name, and the
list of acceptable record names (`None` models a record with no name key). -/
structure Classification where
  zoneQueryKey : String
  isWildcard : Bool
  recordName : String
  acceptableNames : List (Option String)
deriving DecidableEq

/-- The classification computed inline in `update_dns` (lines 378-390),
with the zone query key from `get_zone_id` (lines 87-93): wildcard domains
strip the `*.` prefix and use record name `*`; more than two labels use the
first label; otherwise the root names `""`, `"@"`, `None`. -/
def classify (domain : String) : Classification :=
  if startsWithWildcard domain then
    ⟨stripWildcard domain, true, "*", [some "*"]⟩
  else
    let parts := domainParts domain
    if parts.length > 2 then
      let rn := parts.headI
      ⟨domain, false, rn, [some rn]⟩
    else
      ⟨domain, false, "", [some "", some "@", none]⟩

/-- `get_zone_id` (lines 87-93): the query domain sent to the zones
endpoint is the domain itself, minus a leading `*.` for wildcards. -/
def getZoneQueryDomain (domain : String) : String :=
  if startsWithWildcard domain then stripWildcard domain else domain

end DdnsHosttech

namespace DdnsHosttech

/-- A DNS record as the code uses it: fields read with `record[...]` are
required (`id`, `type`); fields read with `record.get(...)` are `Option`
(`name`, `ttl`, `ipv4`, `ipv6`), `none` modelling an absent key. -/
structure DnsRecord where
  id : Nat
  type : String
  name : Option String
  ttl : Option Nat
  ipv4 : Option String
  ipv6 : Option String
deriving DecidableEq

/-- The name-filtering rule of `get_records` (lines 144-182), applied to
one record: wildcard keeps `record.get("name","") == "*"`; a domain with
more than two labels and a non-empty first label keeps records whose name
equals that label; otherwise the root rule keeps names in
`["", "@", None]`. The `if subdomain:` truthiness test of the source is
the `subdomain ≠ ""` test here. -/
def get_records_keep (domain : String) (r : DnsRecord) : Bool :=
  if startsWithWildcard domain then
    decide (r.name.getD "" = "*")
  else
    let parts := domainParts domain
    let subdomain := if parts.length > 2 then parts.headI else ""
    if subdomain ≠ "" then
      decide (r.name.getD "" = subdomain)
    else
      decide (r.name ∈ [some "", some "@", (none : Option String)])

/-- The record filter of `get_records`: keeps the records selected by
`get_records_keep`. -/
def get_records_filter (domain : String) (all : List DnsRecord) : List DnsRecord :=
  all.filter (get_records_keep domain)

end DdnsHosttech

namespace DdnsHosttech

/-- C5: for every domain that does not start with `*.` and splits on `.`
into at most two labels, classification yields record name `""`,
acceptable names `["", "@", None]`, and the zone query key is the domain
itself. -/
theorem root_domain_classification (d : String)
    (h1 : startsWithWildcard d = false)
    (h2 : (domainParts d).length ≤ 2) :
    classify d = ⟨d, false, "", [some "", some "@", none]⟩ ∧
      getZoneQueryDomain d = d := by
  constructor
  · unfold classify
    rw [h1]
    simp only [Bool.false_eq_true, if_false]
    have : ¬ (domainParts d).length > 2 := by omega
    simp [this]
  · unfold getZoneQueryDomain
    rw [h1]
    simp

/-- Witness for C5 at the concrete root domain `example.com`. -/
theorem root_domain_classification_witness :
    classify "example.com" = ⟨"example.com", false, "", [some "", some "@", none]⟩ ∧
      getZoneQueryDomain "example.com" = "example.com" :=
  root_domain_classification "example.com" (by decide) (by decide)

/-- C6: for every domain of the form `*.` ++ x, classification yields zone
query key `x` (prefix stripped), record name `*`, acceptable names
`{"*"}`, and the zone lookup in `get_zone_id` is issued with `x`. -/
theorem wildcard_domain_classification (x : String) :
    classify ("*." ++ x) = ⟨x, true, "*", [some "*"]⟩ ∧
      getZoneQueryDomain ("*." ++ x) = x := by
  obtain ⟨l⟩ := x
  have hdata : ("*." ++ String.mk l).data = '*' :: '.' :: l := rfl
  have hw : startsWithWildcard ("*." ++ String.mk l) = true := by
    unfold startsWithWildcard
    rw [hdata]
    rfl
  have hs : stripWildcard ("*." ++ String.mk l) = String.mk l := by
    unfold stripWildcard
    rw [hdata]
    rfl
  constructor
  · unfold classify
    rw [hw, hs]
    simp
  · unfold getZoneQueryDomain
    rw [hw, hs]
    simp

/-- A sample record named `@`, used to exhibit the divergence of the two
classification copies on a domain whose first label is empty. -/
def recAt : DnsRecord := ⟨5, "A", some "@", some 3600, some "1.1.1.1", none⟩

/-- C10 counterexample: for the domain `".a.b"` (three labels, empty first
label) the record filter inside `get_records` keeps a record named `"@"`
(the `if subdomain:` truthiness test falls back to the root rule), while
the acceptable-names set computed inside `update_dns` is `[""]`, which
does not contain `"@"`. The two copies of the classification logic
disagree. -/
theorem filter_acceptable_names_counterexample :
    get_records_keep ".a.b" recAt = true ∧
      recAt.name ∉ (classify ".a.b").acceptableNames := by
  decide

/-- C10 amended: for every domain that is a wildcard, or has at most two
labels, or has a non-empty first label, the `get_records` name filter
keeps a record exactly when its name lies in the acceptable-names set
computed in `update_dns`. (Only domains with more than two labels and an
empty first label, such as `".a.b"`, diverge.) -/
theorem filter_matches_acceptable_names (domain : String) (r : DnsRecord)
    (h : startsWithWildcard domain = true ∨ (domainParts domain).length ≤ 2 ∨
      (domainParts domain).headI ≠ "") :
    get_records_keep domain r = true ↔ r.name ∈ (classify domain).acceptableNames := by
  unfold get_records_keep classify
  cases hw : startsWithWildcard domain with
  | true =>
    simp only [if_true]
    cases hn : r.name with
    | none => decide
    | some s => simp
  | false =>
    simp only [Bool.false_eq_true, if_false]
    by_cases hlen : (domainParts domain).length > 2
    · have hne : (domainParts domain).headI ≠ "" := by
        rcases h with h | h | h
        · rw [hw] at h; exact absurd h (by simp)
        · omega
        · exact h
      cases hn : r.name with
      | none => simp [hlen, hne, Ne.symm hne]
      | some s => simp [hlen, hne]
    · simp [hlen]

/-- Witness for the amended C10 at the subdomain `sub.example.com` and a
record named `sub`. -/
theorem filter_matches_acceptable_names_witness :
    get_records_keep "sub.example.com" ⟨1, "A", some "sub", none, none, none⟩ = true ↔
      (some "sub") ∈ (classify "sub.example.com").acceptableNames :=
  filter_matches_acceptable_names "sub.example.com" ⟨1, "A", some "sub", none, none, none⟩
    (by decide)

/-- The selection of `_deduplicate_records` (line 357): records whose type
matches and whose name is in the acceptable-names list. The same predicate
is used by `_record_exists` and `_log_duplicates`. -/
def selection (records : List DnsRecord) (t : String)
    (names : List (Option String)) : List DnsRecord :=
  records.filter (fun r => decide (r.type = t ∧ r.name ∈ names))

/-- The sort key of `_deduplicate_records`: ascending record id. -/
def recIdLE (a b : DnsRecord) : Prop := a.id ≤ b.id

instance : DecidableRel recIdLE := fun a b => Nat.decLe a.id b.id

instance : IsTotal DnsRecord recIdLE := ⟨fun a b => Nat.le_total a.id b.id⟩

instance : IsTrans DnsRecord recIdLE := ⟨fun _ _ _ => Nat.le_trans⟩

/-- `sorted(..., key=lambda r: r.get("id"))` from `_deduplicate_records`,
as a stable insertion sort by ascending id. -/
def sortById (l : List DnsRecord) : List DnsRecord := List.insertionSort recIdLE l

/-- `_deduplicate_records` (lines 355-360): the ids it deletes, in order —
the sorted selection minus its first element (`dups[1:]`). -/
def dedupDeletes (records : List DnsRecord) (t : String)
    (names : List (Option String)) : List Nat :=
  ((sortById (selection records t names)).tail).map DnsRecord.id

/-- The record `_deduplicate_records` retains: the head of the sorted
selection (`dups[0]`), if any. -/
def survivor (records : List DnsRecord) (t : String)
    (names : List (Option String)) : Option DnsRecord :=
  (sortById (selection records t names)).head?

/-- The sorted selection is a permutation of the selection. -/
theorem sortById_perm (l : List DnsRecord) : List.Perm (sortById l) l :=
  List.perm_insertionSort recIdLE l

/-- The sorted selection is sorted by ascending id. -/
theorem sortById_sorted (l : List DnsRecord) : (sortById l).Sorted recIdLE :=
  List.sorted_insertionSort recIdLE l

/-- C3: when the selected records have pairwise distinct ids, deduplication
deletes exactly the ids of selected records that are not the minimum of
the selection: an id is deleted iff some selected record carries it and
some other selected record has a strictly smaller id. In particular the
lowest-id record is retained and records outside the selection are never
deleted. -/
theorem dedup_deletes_exactly_non_minimal (records : List DnsRecord) (t : String)
    (names : List (Option String))
    (h : ((selection records t names).map DnsRecord.id).Nodup) :
    ∀ i : Nat, i ∈ dedupDeletes records t names ↔
      ((∃ r ∈ selection records t names, r.id = i) ∧
       (∃ m ∈ selection records t names, m.id < i)) := by
  intro i
  have hperm : List.Perm (sortById (selection records t names)) (selection records t names) :=
    sortById_perm _
  have hsorted := sortById_sorted (selection records t names)
  have hnodup : ((sortById (selection records t names)).map DnsRecord.id).Nodup :=
    ((hperm.map DnsRecord.id).nodup_iff).mpr h
  unfold dedupDeletes
  cases hl : sortById (selection records t names) with
  | nil =>
    have hsel : selection records t names = [] := by
      have := hperm
      rw [hl] at this
      exact (List.Perm.nil_eq this).symm
    simp [hsel]
  | cons hd tl =>
    rw [hl] at hperm hsorted hnodup
    have hhd_le : ∀ x ∈ tl, hd.id ≤ x.id := fun x hx =>
      List.rel_of_sorted_cons hsorted x hx
    have hhd_notin : hd.id ∉ tl.map DnsRecord.id := by
      rw [List.map_cons] at hnodup
      exact (List.nodup_cons.mp hnodup).1
    constructor
    · intro hi
      rw [List.mem_map] at hi
      obtain ⟨r, hrtl, hri⟩ := hi
      have hrsel : r ∈ selection records t names :=
        hperm.mem_iff.mp (List.mem_cons_of_mem hd hrtl)
      have hhdsel : hd ∈ selection records t names :=
        hperm.mem_iff.mp (List.mem_cons_self hd tl)
      refine ⟨⟨r, hrsel, hri⟩, ⟨hd, hhdsel, ?_⟩⟩
      have hle := hhd_le r hrtl
      have hne : hd.id ≠ r.id := by
        intro heq
        exact hhd_notin (heq ▸ List.mem_map_of_mem DnsRecord.id hrtl)
      omega
    · rintro ⟨⟨r, hrsel, hri⟩, ⟨m, hmsel, hmi⟩⟩
      have hr_mem : r ∈ hd :: tl := hperm.mem_iff.mpr hrsel
      have hm_mem : m ∈ hd :: tl := hperm.mem_iff.mpr hmsel
      have hm_ge : hd.id ≤ m.id := by
        rcases List.mem_cons.mp hm_mem with hmh | hmt
        · rw [hmh]
        · exact hhd_le m hmt
      have hr_tl : r ∈ tl := by
        rcases List.mem_cons.mp hr_mem with hrh | hrt
        · exfalso
          rw [hrh] at hri
          omega
        · exact hrt
      exact hri ▸ List.mem_map_of_mem DnsRecord.id hr_tl

/-- Sample record list for the deduplication witnesses: two `A` records for
the root name with ids 3 and 1, and one unrelated `AAAA` record. -/
def dedupSample : List DnsRecord :=
  [⟨3, "A", some "", some 3600, some "1.1.1.1", none⟩,
   ⟨1, "A", some "", some 3600, some "5.5.5.5", none⟩,
   ⟨2, "AAAA", some "", some 3600, none, some "::1"⟩]

/-- Witness for C3 on `dedupSample`: id 3 is deleted (id 1 is lower), and
the characterization holds at 3. -/
theorem dedup_deletes_exactly_non_minimal_witness :
    3 ∈ dedupDeletes dedupSample "A" [some "", some "@", none] ↔
      ((∃ r ∈ selection dedupSample "A" [some "", some "@", none], r.id = 3) ∧
       (∃ m ∈ selection dedupSample "A" [some "", some "@", none], m.id < 3)) :=
  dedup_deletes_exactly_non_minimal dedupSample "A" [some "", some "@", none] (by decide) 3

/-- Selecting from a filtered list is filtering the selection. -/
theorem selection_filter (p : DnsRecord → Bool) (records : List DnsRecord)
    (t : String) (names : List (Option String)) :
    selection (records.filter p) t names = (selection records t names).filter p := by
  unfold selection
  exact List.filter_comm _ p records

/-- C4: deduplication is idempotent. When record ids in the selection are
pairwise distinct, removing the records deleted by a first run and running
deduplication again deletes nothing and retains the same surviving record
(the one with the lowest id). -/
theorem dedup_idempotent (records : List DnsRecord) (t : String)
    (names : List (Option String))
    (h : ((selection records t names).map DnsRecord.id).Nodup) :
    dedupDeletes
        (records.filter (fun r => decide (r.id ∉ dedupDeletes records t names)))
        t names = [] ∧
      survivor
        (records.filter (fun r => decide (r.id ∉ dedupDeletes records t names)))
        t names = survivor records t names := by
  set p : DnsRecord → Bool :=
    fun r => decide (r.id ∉ dedupDeletes records t names) with hp
  have hperm : List.Perm (sortById (selection records t names))
      (selection records t names) := sortById_perm _
  have hnodup : ((sortById (selection records t names)).map DnsRecord.id).Nodup :=
    ((hperm.map DnsRecord.id).nodup_iff).mpr h
  have hsel2 : selection (records.filter p) t names =
      (selection records t names).filter p := selection_filter p records t names
  cases hl : sortById (selection records t names) with
  | nil =>
    have hsel : selection records t names = [] := by
      have := hperm
      rw [hl] at this
      exact (List.Perm.nil_eq this).symm
    have : selection (records.filter p) t names = [] := by
      rw [hsel2, hsel]
      simp
    constructor
    · unfold dedupDeletes
      rw [this]
      simp [sortById, List.insertionSort]
    · unfold survivor
      rw [this, hsel]
  | cons hd tl =>
    rw [hl] at hperm hnodup
    have hD : dedupDeletes records t names = tl.map DnsRecord.id := by
      unfold dedupDeletes
      rw [hl]
      rfl
    have hhd_notin : hd.id ∉ tl.map DnsRecord.id := by
      rw [List.map_cons] at hnodup
      exact (List.nodup_cons.mp hnodup).1
    -- the filtered selection is a permutation of `(hd :: tl).filter p`
    have hfperm : List.Perm ((selection records t names).filter p)
        ((hd :: tl).filter p) := (hperm.filter p).symm
    have hfilter_cons : (hd :: tl).filter p = [hd] := by
      have hphd : p hd = true := by
        rw [hp]
        simp only [decide_eq_true_eq]
        rw [hD]
        exact hhd_notin
      have htl : tl.filter p = [] := by
        rw [List.filter_eq_nil_iff]
        intro x hx
        rw [hp]
        simp only [decide_eq_true_eq, not_not]
        rw [hD]
        exact List.mem_map_of_mem DnsRecord.id hx
      rw [List.filter_cons, if_pos hphd, htl]
    have hsingle : (selection records t names).filter p = [hd] := by
      rw [hfilter_cons] at hfperm
      exact List.perm_singleton.mp hfperm
    have hsel3 : selection (records.filter p) t names = [hd] := by
      rw [hsel2, hsingle]
    constructor
    · unfold dedupDeletes
      rw [hsel3]
      simp [sortById, List.insertionSort, List.orderedInsert]
    · unfold survivor
      rw [hsel3, hl]
      simp [sortById, List.insertionSort, List.orderedInsert]

/-- Witness for C4 on `dedupSample`: the second run deletes nothing and the
record with id 1 survives both runs. -/
theorem dedup_idempotent_witness :
    dedupDeletes
        (dedupSample.filter
          (fun r => decide (r.id ∉ dedupDeletes dedupSample "A" [some "", some "@", none])))
        "A" [some "", some "@", none] = [] ∧
      survivor
        (dedupSample.filter
          (fun r => decide (r.id ∉ dedupDeletes dedupSample "A" [some "", some "@", none])))
        "A" [some "", some "@", none] =
        survivor dedupSample "A" [some "", some "@", none] :=
  dedup_idempotent dedupSample "A" [some "", some "@", none] (by decide)

/-- `_record_exists` (lines 327-330): a record of the type with a name in
the acceptable list exists. -/
def recordExists (records : List DnsRecord) (t : String)
    (names : List (Option String)) : Bool :=
  records.any (fun r => decide (r.type = t ∧ r.name ∈ names))

/-- The `need_update_ipv4` flag of `update_dns` (lines 418-424): some `A`
record whose `ipv4` (defaulting to `""`) differs from the current IPv4. -/
def needUpdateV4 (records : List DnsRecord) (cur4 : String) : Bool :=
  records.any (fun r => decide (r.type = "A" ∧ r.ipv4.getD "" ≠ cur4))

/-- The `need_update_ipv6` flag of `update_dns` (lines 418-424). -/
def needUpdateV6 (records : List DnsRecord) (cur6 : String) : Bool :=
  records.any (fun r => decide (r.type = "AAAA" ∧ r.ipv6.getD "" ≠ cur6))

/-- One HTTP request issued by the client, as recorded in a trace:
IP discovery, zone lookup, listing a zone's records, and the three
mutations. -/
inductive ApiReq where
  | getIp (v4 : Bool)
  | getZone (query : String)
  | listRecords (zone : Nat)
  | createRec (zone : Nat) (rtype rname ip : String)
  | updateRec (zone : Nat) (recId : Nat) (rtype rname ip : String) (ttl : Nat)
  | deleteRec (zone : Nat) (recId : Nat)
deriving DecidableEq

/-- The `data` object of a PUT response as `update_record` reads it:
`id`, `type`, `name` are indexed directly (required in the model), `ttl`,
`ipv4`, `ipv6` are read with `.get` (optional). -/
structure UpdateRespData where
  id : Nat
  type : String
  name : String
  ttl : Option Nat
  ipv4 : Option String
  ipv6 : Option String
deriving DecidableEq

/-- A PUT response: HTTP status plus the echoed record data. -/
structure UpdateResponse where
  status : Nat
  data : UpdateRespData
deriving DecidableEq

/-- The name `update_record` sends: `record.get("name", "")`. -/
def sentName (r : DnsRecord) : String := r.name.getD ""

/-- The ttl `update_record` sends: `record.get("ttl", 3600)`. -/
def sentTtl (r : DnsRecord) : Nat := r.ttl.getD 3600

/-- The verification of `update_record` (lines 238-248): the echo must
match id, type, name and ttl as sent, plus the type-appropriate address
field. -/
def updateEchoValid (r : DnsRecord) (newIp : String) (d : UpdateRespData) : Bool :=
  decide (d.id = r.id ∧ d.type = r.type ∧ d.name = sentName r ∧
    d.ttl = some (sentTtl r) ∧
    (if r.type = "A" then d.ipv4 = some newIp else d.ipv6 = some newIp))

/-- The outcome of `update_record` (lines 187-257) given the PUT response:
`none` models a raised exception (non-200 status); unsupported record
types return `false` before any request; a 200 response returns the
result of the echo verification. -/
def update_record_result (r : DnsRecord) (newIp : String)
    (resp : UpdateResponse) : Option Bool :=
  if r.type = "A" ∨ r.type = "AAAA" then
    if resp.status = 200 then some (updateEchoValid r newIp resp.data)
    else none
  else some false

/-- The external world for one reconciliation cycle: outcomes of IP
discovery, zone lookup, the (up to three) record fetches per domain, and
the PUT response for each record id. `none` models a failure/exception of
the collaborator. Results of deletes and creates are ignored by
`update_dns`, so they need no oracle. -/
structure Env where
  ipv4Res : Option String
  ipv6Res : Option String
  zoneRes : String → Option Nat
  recordsRes : String → Nat → Option (List DnsRecord)
  updateResp : Nat → UpdateResponse

/-- The update loop of `update_dns` (lines 433-439): issue a PUT per `A` /
`AAAA` record with the family's current address. Returns the issued
requests and whether `update_record` raised (non-200 response), which
aborts the loop. -/
def updateLoop (env : Env) (zone : Nat) (cur4 cur6 : String) :
    List DnsRecord → List ApiReq × Bool
  | [] => ([], false)
  | r :: rs =>
    if r.type = "A" then
      let req := ApiReq.updateRec zone r.id r.type (sentName r) cur4 (sentTtl r)
      match update_record_result r cur4 (env.updateResp r.id) with
      | none => ([req], true)
      | some _ =>
        let rest := updateLoop env zone cur4 cur6 rs
        (req :: rest.1, rest.2)
    else if r.type = "AAAA" then
      let req := ApiReq.updateRec zone r.id r.type (sentName r) cur6 (sentTtl r)
      match update_record_result r cur6 (env.updateResp r.id) with
      | none => ([req], true)
      | some _ =>
        let rest := updateLoop env zone cur4 cur6 rs
        (req :: rest.1, rest.2)
    else updateLoop env zone cur4 cur6 rs

/-- The update phase of `update_dns` (lines 417-439): if neither flag is
set the domain is done (`continue`); otherwise run the update loop. -/
def updatePhase (env : Env) (zone : Nat) (cur4 cur6 : String)
    (records : List DnsRecord) : List ApiReq × Bool :=
  if needUpdateV4 records cur4 = false ∧ needUpdateV6 records cur6 = false then
    ([], false)
  else updateLoop env zone cur4 cur6 records

/-- The body of the per-domain `try` block of `update_dns` (lines 370-443):
the requests it issues, and whether an exception was raised (caught by the
per-domain `except`). Follows the source order: zone lookup, fetch+filter,
deduplicate `A` then `AAAA`, re-fetch, create missing records, re-fetch,
then the update phase. -/
def processDomainBody (env : Env) (cur4 cur6 : String) (domain : String) :
    List ApiReq × Bool :=
  let q := getZoneQueryDomain domain
  let t0 := [ApiReq.getZone q]
  match env.zoneRes q with
  | none => (t0, true)
  | some zone =>
    let t1 := t0 ++ [ApiReq.listRecords zone]
    match env.recordsRes domain 0 with
    | none => (t1, true)
    | some all0 =>
      let records0 := get_records_filter domain all0
      let cls := classify domain
      let delA := dedupDeletes records0 "A" cls.acceptableNames
      let delB := dedupDeletes records0 "AAAA" cls.acceptableNames
      let t2 := t1 ++ delA.map (ApiReq.deleteRec zone) ++ delB.map (ApiReq.deleteRec zone)
      let t3 := t2 ++ [ApiReq.listRecords zone]
      match env.recordsRes domain 1 with
      | none => (t3, true)
      | some all1 =>
        let records1 := get_records_filter domain all1
        let tA := if recordExists records1 "A" cls.acceptableNames then []
          else [ApiReq.createRec zone "A" cls.recordName cur4]
        let tB := if recordExists records1 "AAAA" cls.acceptableNames then []
          else [ApiReq.createRec zone "AAAA" cls.recordName cur6]
        let t4 := t3 ++ tA ++ tB
        let t5 := t4 ++ [ApiReq.listRecords zone]
        match env.recordsRes domain 2 with
        | none => (t5, true)
        | some all2 =>
          let records2 := get_records_filter domain all2
          if records2 = [] then (t5, false)
          else
            let upd := updatePhase env zone cur4 cur6 records2
            (t5 ++ upd.1, upd.2)

/-- The requests issued while processing one domain; exceptions from the
body are caught by the per-domain `except`, so only the trace remains. -/
def processDomain (env : Env) (cur4 cur6 : String) (domain : String) : List ApiReq :=
  (processDomainBody env cur4 cur6 domain).1

/-- The `for domain in self.domains` loop of `update_dns` (lines 369-445):
every domain is processed in order, each one's exceptions caught. -/
def updateDomains (env : Env) (cur4 cur6 : String) : List String → List ApiReq
  | [] => []
  | d :: ds => processDomain env cur4 cur6 d ++ updateDomains env cur4 cur6 ds

/-- `update_dns` (lines 362-448): discover IPv4 then IPv6 (each discovery
is one request; a failure raises, is caught by the outer `except`, and the
per-domain loop is never entered), then process every domain. The function
is total: no failure propagates to the caller. -/
def update_dns (env : Env) (domains : List String) : List ApiReq :=
  match env.ipv4Res with
  | none => [ApiReq.getIp true]
  | some cur4 =>
    match env.ipv6Res with
    | none => [ApiReq.getIp true, ApiReq.getIp false]
    | some cur6 =>
      [ApiReq.getIp true, ApiReq.getIp false] ++ updateDomains env cur4 cur6 domains

/-- `os.environ.get("DOMAINS", "").split(",") if os.environ.get("DOMAINS")
else []` from `main` (line 463): a set, non-empty DOMAINS value is split
on commas; otherwise the default list is empty. -/
def envDomainsList (envDomains : Option String) : List String :=
  match envDomains with
  | some s => if s = "" then [] else (splitOnChar ',' s.data).map String.mk
  | none => []

/-- The domain list `main` settles on (line 481): command-line domains if
given, else the environment-derived defaults. -/
def resolvedDomains (cliDomains : List String) (envDomains : Option String) :
    List String :=
  if cliDomains = [] ∧ envDomainsList envDomains ≠ [] then envDomainsList envDomains
  else cliDomains

/-- Outcome of `main`'s configuration handling: a `parser.error` (which
exits before any network activity) or a run over the final domain list. -/
inductive MainResult where
  | configError (what : String)
  | run (domains : List String)
deriving DecidableEq

/-- The configuration logic of `main` (lines 480-492): resolve the domain
list, reject an empty token, reject an empty domain list, and only then
remove blank entries. -/
def mainResolve (token : String) (cliDomains : List String)
    (envDomains : Option String) : MainResult :=
  let doms := resolvedDomains cliDomains envDomains
  if token = "" then .configError "token"
  else if doms = [] then .configError "domain"
  else .run (doms.filter (fun d => decide (d ≠ "")))

/-- The echo the spec demands of a successful update: identifier, type,
name and time-to-live as sent, and the type-appropriate address field
equal to the new address. -/
def EchoesAsSent (r : DnsRecord) (newIp : String) (d : UpdateRespData) : Prop :=
  d.id = r.id ∧ d.type = r.type ∧ d.name = sentName r ∧
    d.ttl = some (sentTtl r) ∧
    (r.type = "A" → d.ipv4 = some newIp) ∧
    (r.type = "AAAA" → d.ipv6 = some newIp)

instance (r : DnsRecord) (newIp : String) (d : UpdateRespData) :
    Decidable (EchoesAsSent r newIp d) := by
  unfold EchoesAsSent
  infer_instance

/-- C7: for an `A` or `AAAA` record and a 200-status PUT response,
`update_record` returns `True` exactly when the response echoes back
identifier, type, name, ttl and the type-appropriate address field as
sent, and returns `False` (a logged failure, no raise) exactly when some
of those fields mismatch. -/
theorem update_record_verifies_echo (r : DnsRecord) (newIp : String)
    (resp : UpdateResponse)
    (ht : r.type = "A" ∨ r.type = "AAAA") (h200 : resp.status = 200) :
    (update_record_result r newIp resp = some true ↔
      EchoesAsSent r newIp resp.data) ∧
    (update_record_result r newIp resp = some false ↔
      ¬ EchoesAsSent r newIp resp.data) := by
  unfold update_record_result
  rw [if_pos ht, if_pos h200]
  have hAB : ("A" : String) ≠ "AAAA" := by decide
  have hkey : updateEchoValid r newIp resp.data = true ↔ EchoesAsSent r newIp resp.data := by
    unfold updateEchoValid EchoesAsSent
    rcases ht with h | h
    · simp [h, hAB]
    · rw [h]
      simp [Ne.symm hAB]
  constructor
  · rw [Option.some_inj, hkey]
  · rw [Option.some_inj]
    constructor
    · intro hfalse
      rw [← hkey, hfalse]
      simp
    · intro hne
      have : updateEchoValid r newIp resp.data ≠ true := fun htr => hne (hkey.mp htr)
      simpa using this

/-- A record and a fully matching echo, for the C7 witness. -/
def recW : DnsRecord := ⟨9, "A", some "w", some 600, some "3.3.3.3", none⟩

/-- A 200 response echoing `recW` updated to `4.4.4.4`. -/
def respW : UpdateResponse := ⟨200, ⟨9, "A", "w", some 600, some "4.4.4.4", none⟩⟩

/-- Witness for C7: the matching echo makes `update_record` return
`True`, and any mismatch returns `False`. -/
theorem update_record_verifies_echo_witness :
    (update_record_result recW "4.4.4.4" respW = some true ↔
      EchoesAsSent recW "4.4.4.4" respW.data) ∧
    (update_record_result recW "4.4.4.4" respW = some false ↔
      ¬ EchoesAsSent recW "4.4.4.4" respW.data) :=
  update_record_verifies_echo recW "4.4.4.4" respW (Or.inl rfl) rfl

/-- C8: if IPv4 or IPv6 discovery fails, the whole cycle aborts before the
domain loop: the only requests of the cycle are the IP discovery calls
themselves — no zone lookup, record fetch, create, update, or delete is
issued. (`update_dns` is total, so the outer loop continues.) -/
theorem ip_failure_aborts_cycle (env : Env) (domains : List String)
    (h : env.ipv4Res = none ∨ env.ipv6Res = none) :
    update_dns env domains = [ApiReq.getIp true] ∨
      update_dns env domains = [ApiReq.getIp true, ApiReq.getIp false] := by
  unfold update_dns
  rcases h with h | h
  · rw [h]
    left
    rfl
  · cases h4 : env.ipv4Res with
    | none => left; rfl
    | some c4 =>
      rw [h]
      right
      rfl

/-- An environment whose IPv4 discovery fails. -/
def envIpFail : Env :=
  ⟨none, some "::1", fun _ => some 1, fun _ _ => some [],
    fun _ => ⟨200, ⟨0, "A", "", none, none, none⟩⟩⟩

/-- Witness for C8: with IPv4 discovery failing, the cycle issues only the
IP discovery request. -/
theorem ip_failure_aborts_cycle_witness :
    update_dns envIpFail ["a.b", "c.d"] = [ApiReq.getIp true] ∨
      update_dns envIpFail ["a.b", "c.d"] = [ApiReq.getIp true, ApiReq.getIp false] :=
  ip_failure_aborts_cycle envIpFail ["a.b", "c.d"] (Or.inl rfl)

/-- C9: a domain whose processing raises (zone resolution, record fetch,
or update failure) contributes only its partial trace; every domain before
and after it is still processed identically, and `update_dns` (a total
function here, mirroring the per-domain `except`) propagates no failure. -/
theorem domain_failure_isolated (env : Env) (cur4 cur6 : String)
    (pre post : List String) (d : String)
    (h : (processDomainBody env cur4 cur6 d).2 = true) :
    updateDomains env cur4 cur6 (pre ++ d :: post) =
      updateDomains env cur4 cur6 pre ++ processDomain env cur4 cur6 d ++
        updateDomains env cur4 cur6 post := by
  induction pre with
  | nil => simp [updateDomains]
  | cons a l ih =>
    rw [List.cons_append]
    simp only [updateDomains, List.append_eq]
    rw [ih]
    simp [List.append_assoc]

/-- An environment where every zone lookup fails. -/
def envZoneFail : Env :=
  ⟨some "1.1.1.1", some "::1", fun _ => none, fun _ _ => some [],
    fun _ => ⟨200, ⟨0, "A", "", none, none, none⟩⟩⟩

/-- Witness for C9: the failing domain `a.b` does not prevent `c.d` from
being processed. -/
theorem domain_failure_isolated_witness :
    updateDomains envZoneFail "1.1.1.1" "::1" ([] ++ "a.b" :: ["c.d"]) =
      updateDomains envZoneFail "1.1.1.1" "::1" [] ++
        processDomain envZoneFail "1.1.1.1" "::1" "a.b" ++
        updateDomains envZoneFail "1.1.1.1" "::1" ["c.d"] :=
  domain_failure_isolated envZoneFail "1.1.1.1" "::1" [] ["c.d"] "a.b" (by decide)

/-- An environment with working IP discovery, used to show the cycle runs
(and issues its discovery requests) after an all-blank domain list passes
validation. -/
def envAfterBlank : Env :=
  ⟨some "1.1.1.1", some "::1", fun _ => none, fun _ _ => none,
    fun _ => ⟨200, ⟨0, "A", "", none, none, none⟩⟩⟩

/-- C2 counterexample: with `DOMAINS=","` (all entries blank) and no
command-line domains, `main` does **not** report a configuration error —
validation happens before blank entries are removed — and the cycle then
runs over the empty domain list, issuing the two IP discovery requests. -/
theorem blank_domains_counterexample :
    mainResolve "tok" [] (some ",") = MainResult.run [] ∧
      update_dns envAfterBlank [] = [ApiReq.getIp true, ApiReq.getIp false] := by
  constructor
  · decide
  · rfl

/-- C2 amended: a domain list that is non-empty before blank-removal but
all blank passes validation (no configuration error); the program then
proceeds with an empty domain list, and the cycle issues only IP
discovery requests — no zone, record, or mutation call. -/
theorem blank_domains_pass_validation (token : String) (cli : List String)
    (envd : Option String)
    (htok : token ≠ "")
    (hne : resolvedDomains cli envd ≠ [])
    (hblank : ∀ d ∈ resolvedDomains cli envd, d = "") :
    mainResolve token cli envd = MainResult.run [] ∧
      ∀ (env : Env) (r : ApiReq), r ∈ update_dns env [] →
        (r = ApiReq.getIp true ∨ r = ApiReq.getIp false) := by
  constructor
  · unfold mainResolve
    rw [if_neg htok, if_neg hne]
    have hfil : (resolvedDomains cli envd).filter (fun d => decide (d ≠ "")) = [] := by
      rw [List.filter_eq_nil_iff]
      intro d hd
      simp [hblank d hd]
    rw [hfil]
  · intro env r hr
    unfold update_dns at hr
    cases h4 : env.ipv4Res with
    | none =>
      rw [h4] at hr
      simp only [List.mem_singleton] at hr
      exact Or.inl hr
    | some c4 =>
      rw [h4] at hr
      cases h6 : env.ipv6Res with
      | none =>
        rw [h6] at hr
        simpa using hr
      | some c6 =>
        rw [h6] at hr
        simp only [updateDomains, List.append_nil] at hr
        simpa using hr

/-- Witness for the amended C2 with `DOMAINS=","`. -/
theorem blank_domains_pass_validation_witness :
    mainResolve "t" [] (some ",") = MainResult.run [] :=
  (blank_domains_pass_validation "t" [] (some ",") (by decide) (by decide) (by decide)).1

/-- An `A` record for the root name that already holds the current IPv4. -/
def recA1 : DnsRecord := ⟨1, "A", some "", some 3600, some "1.1.1.1", none⟩

/-- An `AAAA` record for the root name holding a stale IPv6. -/
def recB2 : DnsRecord := ⟨2, "AAAA", some "", some 3600, none, some "9.9.9.9"⟩

/-- An environment where the zone holds `recA1` (up to date) and `recB2`
(stale), with current addresses `1.1.1.1` and `2.2.2.2`. -/
def envMixed : Env :=
  ⟨some "1.1.1.1", some "2.2.2.2", fun _ => some 7, fun _ _ => some [recA1, recB2],
    fun i => ⟨200, ⟨i, "A", "", some 3600, some "1.1.1.1", none⟩⟩⟩

/-- C1 counterexample: `recA1` is an `A` record in the final re-fetched
filtered list whose `ipv4` equals the current IPv4, yet because the stale
`AAAA` record `recB2` sets `need_update_ipv6`, the update loop issues an
update request for `recA1` as well during the cycle. -/
theorem matching_record_updated_counterexample :
    envMixed.ipv4Res = some "1.1.1.1" ∧
      recA1.type = "A" ∧ recA1.ipv4 = some "1.1.1.1" ∧
      envMixed.recordsRes "example.com" 2 = some [recA1, recB2] ∧
      recA1 ∈ get_records_filter "example.com" [recA1, recB2] ∧
      ApiReq.updateRec 7 1 "A" "" "1.1.1.1" 3600 ∈
        update_dns envMixed ["example.com"] := by
  refine ⟨rfl, rfl, rfl, rfl, by decide, ?_⟩
  decide

/-- C1 amended: a record whose type-appropriate address already equals the
current address is sent no update call **provided every record in the
final re-fetched filtered list matches its family's current address**
(then the flags are both unset and no update request is issued at all);
when some record in the list differs, the loop updates every `A`/`AAAA`
record in the list, matching ones included. -/
theorem no_update_when_all_match (env : Env) (cur4 cur6 : String)
    (domain : String) (all2 : List DnsRecord)
    (hfetch : env.recordsRes domain 2 = some all2)
    (hmatch : ∀ r ∈ get_records_filter domain all2,
      (r.type = "A" → r.ipv4.getD "" = cur4) ∧
      (r.type = "AAAA" → r.ipv6.getD "" = cur6)) :
    ∀ z i t n ip ttl,
      ApiReq.updateRec z i t n ip ttl ∉ processDomain env cur4 cur6 domain := by
  have hneed4 : needUpdateV4 (get_records_filter domain all2) cur4 = false := by
    unfold needUpdateV4
    rw [List.any_eq_false]
    intro r hr
    simp only [decide_eq_true_eq, not_and, not_not]
    exact (hmatch r hr).1
  have hneed6 : needUpdateV6 (get_records_filter domain all2) cur6 = false := by
    unfold needUpdateV6
    rw [List.any_eq_false]
    intro r hr
    simp only [decide_eq_true_eq, not_and, not_not]
    exact (hmatch r hr).2
  intro z i t n ip ttl hmem
  simp only [processDomain, processDomainBody] at hmem
  cases hz : env.zoneRes (getZoneQueryDomain domain) with
  | none =>
    rw [hz] at hmem
    simp at hmem
  | some zone =>
    rw [hz] at hmem
    cases h0 : env.recordsRes domain 0 with
    | none =>
      rw [h0] at hmem
      simp at hmem
    | some all0 =>
      rw [h0] at hmem
      cases h1 : env.recordsRes domain 1 with
      | none =>
        rw [h1] at hmem
        simp at hmem
      | some all1 =>
        rw [h1, hfetch] at hmem
        by_cases hA : recordExists (get_records_filter domain all1) "A"
            (classify domain).acceptableNames = true <;>
          by_cases hB : recordExists (get_records_filter domain all1) "AAAA"
              (classify domain).acceptableNames = true <;>
            simp [hA, hB, updatePhase, hneed4, hneed6, apply_ite] at hmem

/-- An environment where every record already matches the current
addresses, for the amended C1 witness. -/
def envAllMatch : Env :=
  ⟨some "1.1.1.1", some "::1", fun _ => some 7,
    fun _ _ => some [⟨1, "A", some "", some 3600, some "1.1.1.1", none⟩,
      ⟨2, "AAAA", some "", some 3600, none, some "::1"⟩],
    fun i => ⟨200, ⟨i, "A", "", some 3600, some "1.1.1.1", none⟩⟩⟩

/-- Witness for the amended C1: with every record up to date, no update
request is issued while processing `example.com`. -/
theorem no_update_when_all_match_witness :
    ApiReq.updateRec 7 1 "A" "" "1.1.1.1" 3600 ∉
      processDomain envAllMatch "1.1.1.1" "::1" "example.com" :=
  no_update_when_all_match envAllMatch "1.1.1.1" "::1" "example.com"
    [⟨1, "A", some "", some 3600, some "1.1.1.1", none⟩,
     ⟨2, "AAAA", some "", some 3600, none, some "::1"⟩]
    rfl (by decide) 7 1 "A" "" "1.1.1.1" 3600

end DdnsHosttech
